import Mathlib

/-
Shallow embedding of the curve/LUT engine of
cpp-core/src/CurveEngine.cpp (PhotoStudioPro).

Modelling conventions:
  * C `double` values are modelled as real numbers;
  * C arrays / std::vector are modelled as lists;
  * a possibly-null pointer argument is an `Option`;
  * array reads the code performs only at valid indices are modelled with
    `List.getD` and a default element;
  * `std::sort` guarantees only that the result is a permutation of the
    input that is sorted with respect to the comparator; the embedding
    therefore takes the sorting routine as a parameter together with the
    predicate `stdSortSpec` stating exactly that contract;
  * real division by zero yields 0, which diverges from IEEE doubles
    exactly on inputs that make a divisor zero (duplicate `x` values).
    The `FP` model below mirrors the spline construction with IEEE
    infinity/NaN semantics for those inputs, and theorems about the
    real-valued spline pipeline whose faithfulness depends on nonzero
    divisors carry a strictly-increasing-`x` hypothesis.
-/

namespace CurveEngine

/-- Model of the `CurvePoint` struct of AdvancedCurveProcessor.h. -/
structure CurvePoint where
  x : ℝ
  y : ℝ

/-- Default point for out-of-range reads (never hit on covered code paths). -/
def dpt : CurvePoint := ⟨0, 0⟩

/-- Read `points[i]` from a point array. -/
def ptAt (pts : List CurvePoint) (i : Nat) : CurvePoint := pts.getD i dpt

/-- Model of `std::clamp(v, 0.0, 1.0)`. -/
noncomputable def clamp01 (v : ℝ) : ℝ := if v < 0 then 0 else if 1 < v then 1 else v

/-- Constant `DEFAULT_LUT_SIZE` of AdvancedCurveProcessor.h. -/
def DEFAULT_LUT_SIZE : Nat := 4096

/-- Values of the `CurveType` C enum (the underlying integer type, since the
    C API can receive any integer value in a `CurveType` argument). -/
def CURVE_TYPE_LINEAR : Int := 0

/-- Enum value `CURVE_TYPE_CUBIC_SPLINE`. -/
def CURVE_TYPE_CUBIC_SPLINE : Int := 1

/-- Enum value `CURVE_TYPE_BEZIER`. -/
def CURVE_TYPE_BEZIER : Int := 2

/-- Enum value `CURVE_TYPE_PARAMETRIC`. -/
def CURVE_TYPE_PARAMETRIC : Int := 3

/-- Enum value `CURVE_TYPE_AI_OPTIMIZED`. -/
def CURVE_TYPE_AI_OPTIMIZED : Int := 4

/-- Values of the `ColorChannel` C enum. -/
def CHANNEL_RGB : Int := 0

/-- Enum value `CHANNEL_RED`. -/
def CHANNEL_RED : Int := 1

/-- Enum value `CHANNEL_GREEN`. -/
def CHANNEL_GREEN : Int := 2

/-- Enum value `CHANNEL_BLUE`. -/
def CHANNEL_BLUE : Int := 3

/-- Enum value `CHANNEL_LUMINANCE`. -/
def CHANNEL_LUMINANCE : Int := 4

/-- Enum value `CHANNEL_LAB_L`. -/
def CHANNEL_LAB_L : Int := 5

/-- Enum value `CHANNEL_LAB_A`. -/
def CHANNEL_LAB_A : Int := 6

/-- Enum value `CHANNEL_LAB_B`. -/
def CHANNEL_LAB_B : Int := 7

/-- Values of the `CurveResult` C enum. -/
def CURVE_SUCCESS : Int := 0

/-- Enum value `CURVE_ERROR_INVALID_PARAMS`. -/
def CURVE_ERROR_INVALID_PARAMS : Int := -1

/-- Enum value `CURVE_ERROR_OUT_OF_MEMORY`. -/
def CURVE_ERROR_OUT_OF_MEMORY : Int := -2

/-- Enum value `CURVE_ERROR_NOT_INITIALIZED`. -/
def CURVE_ERROR_NOT_INITIALIZED : Int := -3

/-!  ## Linear interpolation (LookupTableGenerator::linearInterpolate)  -/

/-- The bracketing-segment scan of `linearInterpolate`: the loop
    `for i in 0..n-2: if (x >= p[i].x && x <= p[i+1].x) return interp;`
    followed by the `return x;` fallback. -/
noncomputable def linScan : List CurvePoint → ℝ → ℝ
  | p :: q :: rest, x =>
    if p.x ≤ x ∧ x ≤ q.x then p.y + (x - p.x) / (q.x - p.x) * (q.y - p.y)
    else linScan (q :: rest) x
  | _, x => x

/-- Model of `LookupTableGenerator::linearInterpolate`. -/
noncomputable def linearInterpolate (pts : List CurvePoint) (x : ℝ) : ℝ :=
  match pts with
  | [] => x
  | [p] => p.y
  | p :: q :: rest =>
    if x ≤ p.x then p.y
    else if ((p :: q :: rest).getLastD dpt).x ≤ x then ((p :: q :: rest).getLastD dpt).y
    else linScan (p :: q :: rest) x

/-!  ## Bezier (LookupTableGenerator::evaluateBezier)  -/

/-- One inner pass of the in-place De Casteljau loop:
    `temp[j] = (1-t)*temp[j] + t*temp[j+1]` for ascending `j`, which reads
    each `temp[j+1]` before it is overwritten, i.e. maps adjacent pairs. -/
noncomputable def deCasteljauStep (t : ℝ) : List CurvePoint → List CurvePoint
  | p :: q :: rest =>
    (⟨(1 - t) * p.x + t * q.x, (1 - t) * p.y + t * q.y⟩ : CurvePoint) ::
      deCasteljauStep t (q :: rest)
  | _ => []

/-- Model of `LookupTableGenerator::evaluateBezier`. -/
noncomputable def evaluateBezier (pts : List CurvePoint) (t : ℝ) : ℝ :=
  match pts with
  | [] => t
  | p :: rest =>
    clamp01 (((deCasteljauStep t)^[(p :: rest).length - 1] (p :: rest)).headD dpt).y

/-!  ## Natural cubic spline (CubicSplineInterpolator)  -/

/-- Segment width `h[i] = points[i+1].x - points[i].x`. -/
noncomputable def splineH (pts : List CurvePoint) (i : Nat) : ℝ :=
  (ptAt pts (i + 1)).x - (ptAt pts i).x

/-- The `alpha[i]` values of the natural-spline construction. -/
noncomputable def splineAlpha (pts : List CurvePoint) (i : Nat) : ℝ :=
  (3 / splineH pts i) * ((ptAt pts (i + 1)).y - (ptAt pts i).y)
    - (3 / splineH pts (i - 1)) * ((ptAt pts i).y - (ptAt pts (i - 1)).y)

/-- The forward elimination of the tridiagonal system: `(l[i], mu[i], z[i])`.
    Indices outside the loop range `1 ≤ i ≤ n-2` carry the values the code
    assigns (`l[0]=1, mu[0]=0, z[0]=0`; `l[n-1]=1, z[n-1]=0`, `mu[n-1]`
    keeps its zero initialisation from `std::vector<double> mu(n)`). -/
noncomputable def splineLMZ (pts : List CurvePoint) : Nat → ℝ × ℝ × ℝ
  | 0 => (1, 0, 0)
  | i + 1 =>
    if i + 1 ≤ pts.length - 2 then
      let prev := splineLMZ pts i
      let li : ℝ := 2 * ((ptAt pts (i + 2)).x - (ptAt pts i).x) - splineH pts i * prev.2.1
      (li, splineH pts (i + 1) / li,
        (splineAlpha pts (i + 1) - splineH pts i * prev.2.2) / li)
    else (1, 0, 0)

/-- Back substitution: `c[n-1] = 0`, `c[j] = z[j] - mu[j] * c[j+1]`. -/
noncomputable def splineCcoef (pts : List CurvePoint) (j : Nat) : ℝ :=
  if pts.length - 1 ≤ j then 0
  else (splineLMZ pts j).2.2 - (splineLMZ pts j).2.1 * splineCcoef pts (j + 1)
termination_by pts.length - 1 - j
decreasing_by
  rename_i h
  omega

/-- Coefficient `b[j]` of the back substitution. -/
noncomputable def splineBcoef (pts : List CurvePoint) (j : Nat) : ℝ :=
  ((ptAt pts (j + 1)).y - (ptAt pts j).y) / splineH pts j
    - splineH pts j * (splineCcoef pts (j + 1) + 2 * splineCcoef pts j) / 3

/-- Coefficient `d[j]` of the back substitution. -/
noncomputable def splineDcoef (pts : List CurvePoint) (j : Nat) : ℝ :=
  (splineCcoef pts (j + 1) - splineCcoef pts j) / (3 * splineH pts j)

/-- Model of `CubicSplineInterpolator::SplineSegment`. -/
structure SplineSegment where
  a : ℝ
  b : ℝ
  c : ℝ
  d : ℝ
  x_start : ℝ
  x_end : ℝ

/-- Default segment for out-of-range reads (never hit on covered paths). -/
def dseg : SplineSegment := ⟨0, 0, 0, 0, 0, 0⟩

/-- Model of `CubicSplineInterpolator::calculateSplineSegments`. -/
noncomputable def calculateSplineSegments (pts : List CurvePoint) : List SplineSegment :=
  if pts.length < 2 then []
  else
    (List.range (pts.length - 1)).map fun i =>
      ⟨(ptAt pts i).y, splineBcoef pts i, splineCcoef pts i, splineDcoef pts i,
        (ptAt pts i).x, (ptAt pts (i + 1)).x⟩

/-- The cubic `a + b·dx + c·dx² + d·dx³` of a segment. -/
noncomputable def evalSeg (s : SplineSegment) (dx : ℝ) : ℝ :=
  s.a + s.b * dx + s.c * dx * dx + s.d * dx * dx * dx

/-- The `std::lower_bound` segment search of `CubicSplineInterpolator::evaluate`
    on the (end-sorted) segment list: the first segment with `x ≤ x_end`,
    falling back to the last segment (the `it == end()` adjustment). -/
noncomputable def findSegment : List SplineSegment → ℝ → SplineSegment
  | [], _ => dseg
  | [s], _ => s
  | s :: s2 :: rest, x => if x ≤ s.x_end then s else findSegment (s2 :: rest) x

/-- Model of `CubicSplineInterpolator::evaluate`. -/
noncomputable def CubicSplineInterpolator.evaluate
    (segs : List SplineSegment) (x : ℝ) : ℝ :=
  match segs with
  | [] => x
  | s0 :: rest =>
    if x ≤ s0.x_start then s0.a
    else if ((s0 :: rest).getLastD dseg).x_end ≤ x then
      evalSeg ((s0 :: rest).getLastD dseg)
        (((s0 :: rest).getLastD dseg).x_end - ((s0 :: rest).getLastD dseg).x_start)
    else
      evalSeg (findSegment (s0 :: rest) x) (x - (findSegment (s0 :: rest) x).x_start)

/-!  ## LUT generation (LookupTableGenerator)  -/

/-- Model of `LookupTableGenerator::generateLinearLUT`. -/
noncomputable def generateLinearLUT (pts : List CurvePoint) (size : Nat) : List ℝ :=
  (List.range size).map fun (i : Nat) => linearInterpolate pts ((i : ℝ) / ((size : ℝ) - 1))

/-- Model of `LookupTableGenerator::generateCubicSplineLUT`. -/
noncomputable def generateCubicSplineLUT (pts : List CurvePoint) (size : Nat) : List ℝ :=
  (List.range size).map fun (i : Nat) =>
    clamp01 (CubicSplineInterpolator.evaluate (calculateSplineSegments pts)
      ((i : ℝ) / ((size : ℝ) - 1)))

/-- Model of `LookupTableGenerator::generateBezierLUT`. -/
noncomputable def generateBezierLUT (pts : List CurvePoint) (size : Nat) : List ℝ :=
  (List.range size).map fun (i : Nat) => evaluateBezier pts ((i : ℝ) / ((size : ℝ) - 1))

/-- Model of `LookupTableGenerator::generateParametricLUT`. -/
noncomputable def generateParametricLUT (pts : List CurvePoint) (size : Nat) : List ℝ :=
  let gamma : ℝ := if 2 < pts.length then (ptAt pts 1).y / (ptAt pts 1).x else 1
  let lift : ℝ := if pts.length = 0 then 0 else (ptAt pts 0).y
  let gain : ℝ := if 1 < pts.length then (pts.getLastD dpt).y else 1
  (List.range size).map fun (i : Nat) =>
    clamp01 (lift + (gain - lift) * ((i : ℝ) / ((size : ℝ) - 1)) ^ gamma)

/-- Model of `LookupTableGenerator::generateAIOptimizedLUT`: in every build
    configuration the function calls `generateCubicSplineLUT`. -/
noncomputable def generateAIOptimizedLUT (pts : List CurvePoint) (size : Nat) : List ℝ :=
  generateCubicSplineLUT pts size

/-- Model of `LookupTableGenerator::generateOptimizedLUT`.  The switch has no
    default case, so an unrecognised type value leaves the zero-initialised
    `std::vector<double> lut(size)` untouched. -/
noncomputable def generateOptimizedLUT (pts : List CurvePoint) (ty : Int) (size : Nat) :
    List ℝ :=
  if ty = CURVE_TYPE_LINEAR then generateLinearLUT pts size
  else if ty = CURVE_TYPE_CUBIC_SPLINE then generateCubicSplineLUT pts size
  else if ty = CURVE_TYPE_BEZIER then generateBezierLUT pts size
  else if ty = CURVE_TYPE_PARAMETRIC then generateParametricLUT pts size
  else if ty = CURVE_TYPE_AI_OPTIMIZED then generateAIOptimizedLUT pts size
  else List.replicate size 0

/-!  ## Pixel application (ImageCurveProcessor)  -/

/-- Model of the `ImageData` struct: 8-bit samples addressed as
    `data y x c` (row, column, channel).  The byte-level `stride` of the C
    struct is abstracted into this logical addressing. -/
structure ImageData where
  width : Nat
  height : Nat
  channels : Nat
  data : Nat → Nat → Nat → Nat

/-- Model of `ImageCurveProcessor::getChannelIndex`. -/
def getChannelIndex (channel : Int) : Int :=
  if channel = CHANNEL_RED then 0
  else if channel = CHANNEL_GREEN then 1
  else if channel = CHANNEL_BLUE then 2
  else -1

/-- `static_cast<int>` on a double: truncation toward zero. -/
noncomputable def castInt (r : ℝ) : Int := if r < 0 then -⌊-r⌋ else ⌊r⌋

/-- The per-sample LUT lookup of `applyLUTCPU`: normalise the 8-bit value,
    scale by `lut_size - 1`, split into integer index and fraction, and
    linearly interpolate between adjacent LUT entries (clamping to the last
    entry when the index reaches `lut_size - 1`). -/
noncomputable def lutLookup (lut : List ℝ) (v : Nat) : ℝ :=
  let scale : ℝ := (lut.length : ℝ) - 1
  let pos : ℝ := ((v : ℝ) / 255) * scale
  let idx : Int := castInt pos
  if (lut.length : Int) - 1 ≤ idx then lut.getD (lut.length - 1) 0
  else
    lut.getD idx.toNat 0 +
      (pos - (idx : ℝ)) * (lut.getD (idx.toNat + 1) 0 - lut.getD idx.toNat 0)

/-- `std::clamp(r, 0.0, 255.0)`. -/
noncomputable def clamp255 (r : ℝ) : ℝ := if r < 0 then 0 else if 255 < r then 255 else r

/-- The full 8-bit output sample of `applyLUTCPU`: LUT lookup, rescale to
    [0,255] with the `+0.5` rounding term, clamp, truncate to `uint8_t`. -/
noncomputable def mapByte (lut : List ℝ) (v : Nat) : Nat :=
  (⌊clamp255 (lutLookup lut v * 255 + 1 / 2)⌋).toNat

/-- Model of `ImageCurveProcessor::applyLUTCPU`.  `output0` is the output
    buffer as the caller handed it in; samples the loop does not write keep
    that prior content.  For `CHANNEL_RGB`/`CHANNEL_LUMINANCE` the first
    `min 3 channels` channels are mapped; for a specific channel with a
    valid index that channel is mapped and the others are copied; for the
    Lab channels (`getChannelIndex` returns `-1`) nothing is written except
    the alpha copy for 4-channel images. -/
noncomputable def applyLUTCPU (lut : List ℝ) (input output0 : ImageData)
    (channel : Int) : ImageData :=
  { width := output0.width, height := output0.height, channels := output0.channels,
    data := fun y x c =>
      if y < input.height ∧ x < input.width ∧ c < input.channels then
        if channel = CHANNEL_RGB ∨ channel = CHANNEL_LUMINANCE then
          if c < min 3 input.channels then mapByte lut (input.data y x c)
          else if input.channels = 4 ∧ c = 3 then input.data y x c
          else output0.data y x c
        else if 0 ≤ getChannelIndex channel ∧
            getChannelIndex channel < (input.channels : Int) then
          if (c : Int) = getChannelIndex channel then mapByte lut (input.data y x c)
          else input.data y x c
        else if input.channels = 4 ∧ c = 3 then input.data y x c
        else output0.data y x c
      else output0.data y x c }

/-!  ## C API (curve_create, curve_generate_lut, curve_apply_to_image)  -/

/-- Model of the `CurveData` struct (`point_count` is the list length). -/
structure CurveData where
  points : List CurvePoint
  type : Int
  channel : Int
  gamma : ℝ
  black_point : ℝ
  white_point : ℝ
  lut_size : Nat

/-- Clamp both coordinates of a point to [0,1] (the copy/validate loop of
    `curve_create`). -/
noncomputable def clampPoint (p : CurvePoint) : CurvePoint :=
  ⟨clamp01 p.x, clamp01 p.y⟩

/-- The sortedness `std::sort` establishes with the comparator
    `a.x < b.x`: no adjacent strict descent in `x`. -/
def sortedByX (l : List CurvePoint) : Prop :=
  l.Chain' fun a b => ¬ b.x < a.x

/-- The full contract of `std::sort` with comparator `a.x < b.x`: the result
    is a permutation of the input and is sorted.  Nothing more — in
    particular no stability — is guaranteed, so the embedding of
    `curve_create` is parameterised by an arbitrary routine satisfying
    this predicate. -/
def stdSortSpec (sort : List CurvePoint → List CurvePoint) : Prop :=
  ∀ l, (sort l).Perm l ∧ sortedByX (sort l)

/-- Model of `curve_create`.  `points = none` models a null `points`
    argument and `outValid = false` a null `out_curve`; the global
    `g_initialized` flag is the `initialized` argument.  The parameter
    check precedes the initialisation check, and the curve type is stored
    without any validation. -/
noncomputable def curve_create (sort : List CurvePoint → List CurvePoint)
    (initialized : Bool) (points : Option (List CurvePoint)) (ty : Int)
    (outValid : Bool) : Int × Option CurveData :=
  match points with
  | none => (CURVE_ERROR_INVALID_PARAMS, none)
  | some ps =>
    if ps.length < 2 ∨ outValid = false then (CURVE_ERROR_INVALID_PARAMS, none)
    else if initialized = false then (CURVE_ERROR_NOT_INITIALIZED, none)
    else
      (CURVE_SUCCESS,
        some ⟨sort (ps.map clampPoint), ty, CHANNEL_RGB, 1, 0, 1, DEFAULT_LUT_SIZE⟩)

/-- Model of `curve_generate_lut`.  The function checks its three pointer
    arguments and nothing else: the global `g_initialized` flag (passed
    here as `initialized` for comparison with the other entry points) is
    never consulted. -/
noncomputable def curve_generate_lut (initialized : Bool) (curve : Option CurveData)
    (lutValid sizeValid : Bool) : Int × Option (List ℝ) :=
  match curve with
  | none => (CURVE_ERROR_INVALID_PARAMS, none)
  | some c =>
    if lutValid = false ∨ sizeValid = false then (CURVE_ERROR_INVALID_PARAMS, none)
    else (CURVE_SUCCESS, some (generateOptimizedLUT c.points c.type c.lut_size))

/-- Model of `curve_apply_to_image`.  GPU paths are compiled out
    (`isGPUAvailable` is false without OPENCL/DIRECTML), so
    `applyLUTToImage` always reaches `applyLUTCPU`. -/
noncomputable def curve_apply_to_image (initialized : Bool) (curve : Option CurveData)
    (input output0 : Option ImageData) : Int × Option ImageData :=
  match curve, input, output0 with
  | some c, some inp, some out0 =>
    if initialized = false then (CURVE_ERROR_NOT_INITIALIZED, some out0)
    else
      (CURVE_SUCCESS,
        some (applyLUTCPU (generateOptimizedLUT c.points c.type c.lut_size) inp out0
          c.channel))
  | _, _, _ => (CURVE_ERROR_INVALID_PARAMS, output0)

/-- The identity LUT of the spec's testable property:
    `lut[i] = i / (lutSize - 1)`. -/
noncomputable def identityLUT (n : Nat) : List ℝ :=
  (List.range n).map fun (i : Nat) => (i : ℝ) / ((n : ℝ) - 1)

/-- Insert a point into a list using exactly the comparator `a.x < b.x` that
    `curve_create` hands to `std::sort`: the new point goes in front of the
    first element it compares strictly below, hence after every element it
    ties with in `x`. -/
noncomputable def insertX (p : CurvePoint) : List CurvePoint → List CurvePoint
  | [] => [p]
  | q :: l => if p.x < q.x then p :: q :: l else q :: insertX p l

/-- A concrete sorting routine satisfying `stdSortSpec` (proved below), i.e.
    one behaviour `std::sort` is allowed to exhibit.  Like the introsort used
    by the major standard-library implementations it is not stable: points
    with equal `x` come out in reversed relative order. -/
noncomputable def insertSortX : List CurvePoint → List CurvePoint
  | [] => []
  | p :: l => insertX p (insertSortX l)

/-- The stability property the spec asserts for the stored point order: any
    two input positions with equal `x` appear in the stored list, in that
    same relative order. -/
def keepsTieOrder (inp out : List CurvePoint) : Prop :=
  ∀ i j : Nat, ∀ hi : i < inp.length, ∀ hj : j < inp.length, i < j →
    (inp.get ⟨i, hi⟩).x = (inp.get ⟨j, hj⟩).x →
    ∃ i2 j2 : Nat, ∃ hi2 : i2 < out.length, ∃ hj2 : j2 < out.length,
      i2 < j2 ∧ out.get ⟨i2, hi2⟩ = inp.get ⟨i, hi⟩ ∧
        out.get ⟨j2, hj2⟩ = inp.get ⟨j, hj⟩

/-- A point set as stored by a successful `curve_create`: at least two
    points, every coordinate in [0,1], sorted ascending by `x` (duplicate
    `x` values permitted). -/
def validPointSet (pts : List CurvePoint) : Prop :=
  2 ≤ pts.length ∧ (∀ p ∈ pts, 0 ≤ p.x ∧ p.x ≤ 1 ∧ 0 ≤ p.y ∧ p.y ≤ 1) ∧
    sortedByX pts

/-- Every divisor of the divisions executed during LUT generation is
    nonzero: the spline construction divides by the segment widths `h[j]`
    (in `alpha`, `b[j]` and `d[j]`) and by the tridiagonal pivots `l[i]`
    (for `mu[i]` and `z[i]`, `1 ≤ i ≤ n-2`), and the parametric path
    divides by `points[1].x` when a third point exists. -/
def lutDivisorsNonzero (pts : List CurvePoint) : Prop :=
  (∀ j, j < pts.length - 1 → splineH pts j ≠ 0) ∧
    (∀ i, 1 ≤ i → i ≤ pts.length - 2 → (splineLMZ pts i).1 ≠ 0) ∧
    (2 < pts.length → (ptAt pts 1).x ≠ 0)

/-- Strictly increasing `x` coordinates (no duplicate `x`). -/
def strictlyIncreasingX (pts : List CurvePoint) : Prop :=
  pts.Chain' fun a b => a.x < b.x

/-- Sample `i` of the parametric LUT as the spec words it: `lift` is the
    first point's `y`, `gain` the last point's `y`, `gamma` is
    `points[1].y / points[1].x` when a third point exists and 1 otherwise,
    and the sample is `lift + (gain - lift) · x^gamma` clamped to [0,1] at
    `x = i/(resolution-1)`. -/
noncomputable def parametricSpecSample (pts : List CurvePoint) (size i : Nat) : ℝ :=
  let lift := (pts.headD dpt).y
  let gain := (pts.getLastD dpt).y
  let gamma : ℝ := if 2 < pts.length then (ptAt pts 1).y / (ptAt pts 1).x else 1
  clamp01 (lift + (gain - lift) * ((i : ℝ) / ((size : ℝ) - 1)) ^ gamma)

/-!  ## IEEE model of the spline arithmetic

The real-number model cannot represent the infinities and NaNs the C++
spline construction produces when a segment width is zero.  The `FP` type
and the `...F` definitions below re-run exactly the same computation with
IEEE-754 double semantics for the non-finite values (signed zero is not
modelled: the subtractions reached on clamped inputs only produce the
positive zero, and no operation below branches on a zero's sign).  Finite
values are exact reals, as in the main model. -/

/-- An IEEE double value: a finite real, a signed infinity, or NaN. -/
inductive FP where
  | fin (r : ℝ)
  | pinf
  | ninf
  | nan

/-- IEEE negation. -/
noncomputable def FP.neg : FP → FP
  | FP.fin r => FP.fin (-r)
  | FP.pinf => FP.ninf
  | FP.ninf => FP.pinf
  | FP.nan => FP.nan

/-- IEEE addition: NaN propagates, opposite infinities give NaN, an
    infinity absorbs finite values. -/
noncomputable def FP.add : FP → FP → FP
  | FP.nan, _ => FP.nan
  | _, FP.nan => FP.nan
  | FP.fin a, FP.fin b => FP.fin (a + b)
  | FP.fin _, FP.pinf => FP.pinf
  | FP.fin _, FP.ninf => FP.ninf
  | FP.pinf, FP.fin _ => FP.pinf
  | FP.pinf, FP.pinf => FP.pinf
  | FP.pinf, FP.ninf => FP.nan
  | FP.ninf, FP.fin _ => FP.ninf
  | FP.ninf, FP.pinf => FP.nan
  | FP.ninf, FP.ninf => FP.ninf

/-- IEEE subtraction `a - b = a + (-b)`. -/
noncomputable def FP.sub (a b : FP) : FP := FP.add a (FP.neg b)

/-- IEEE multiplication: NaN propagates and `infinity * 0 = NaN`. -/
noncomputable def FP.mul : FP → FP → FP
  | FP.nan, _ => FP.nan
  | _, FP.nan => FP.nan
  | FP.fin a, FP.fin b => FP.fin (a * b)
  | FP.fin a, FP.pinf =>
    if a = 0 then FP.nan else if 0 < a then FP.pinf else FP.ninf
  | FP.fin a, FP.ninf =>
    if a = 0 then FP.nan else if 0 < a then FP.ninf else FP.pinf
  | FP.pinf, FP.fin b =>
    if b = 0 then FP.nan else if 0 < b then FP.pinf else FP.ninf
  | FP.ninf, FP.fin b =>
    if b = 0 then FP.nan else if 0 < b then FP.ninf else FP.pinf
  | FP.pinf, FP.pinf => FP.pinf
  | FP.pinf, FP.ninf => FP.ninf
  | FP.ninf, FP.pinf => FP.ninf
  | FP.ninf, FP.ninf => FP.pinf

/-- IEEE division: NaN propagates, `0/0 = NaN`, a nonzero finite value
    divided by (positive) zero is a signed infinity, a finite value
    divided by an infinity is zero, and `infinity / infinity = NaN`. -/
noncomputable def FP.div : FP → FP → FP
  | FP.nan, _ => FP.nan
  | _, FP.nan => FP.nan
  | FP.fin a, FP.fin b =>
    if b = 0 then (if a = 0 then FP.nan else if 0 < a then FP.pinf else FP.ninf)
    else FP.fin (a / b)
  | FP.fin _, FP.pinf => FP.fin 0
  | FP.fin _, FP.ninf => FP.fin 0
  | FP.pinf, FP.fin b => if 0 ≤ b then FP.pinf else FP.ninf
  | FP.ninf, FP.fin b => if 0 ≤ b then FP.ninf else FP.pinf
  | FP.pinf, FP.pinf => FP.nan
  | FP.pinf, FP.ninf => FP.nan
  | FP.ninf, FP.pinf => FP.nan
  | FP.ninf, FP.ninf => FP.nan

/-- IEEE `<`: every comparison with NaN is false. -/
def FP.lt : FP → FP → Prop
  | FP.nan, _ => False
  | _, FP.nan => False
  | FP.fin a, FP.fin b => a < b
  | FP.fin _, FP.pinf => True
  | FP.fin _, FP.ninf => False
  | FP.pinf, _ => False
  | FP.ninf, FP.ninf => False
  | FP.ninf, _ => True

/-- A value "lies in [0,1]" only if it is finite and in the interval — in
    particular NaN does not. -/
def FPin01 (v : FP) : Prop := ∃ r : ℝ, v = FP.fin r ∧ 0 ≤ r ∧ r ≤ 1

/-- IEEE run of the segment width `h[i]` (the input coordinates are finite
    doubles). -/
noncomputable def splineHF (pts : List CurvePoint) (i : Nat) : FP :=
  FP.sub (FP.fin (ptAt pts (i + 1)).x) (FP.fin (ptAt pts i).x)

/-- IEEE run of `alpha[i]`. -/
noncomputable def splineAlphaF (pts : List CurvePoint) (i : Nat) : FP :=
  FP.sub
    (FP.mul (FP.div (FP.fin 3) (splineHF pts i))
      (FP.sub (FP.fin (ptAt pts (i + 1)).y) (FP.fin (ptAt pts i).y)))
    (FP.mul (FP.div (FP.fin 3) (splineHF pts (i - 1)))
      (FP.sub (FP.fin (ptAt pts i).y) (FP.fin (ptAt pts (i - 1)).y)))

/-- IEEE run of the forward elimination `(l[i], mu[i], z[i])`. -/
noncomputable def splineLMZF (pts : List CurvePoint) : Nat → FP × FP × FP
  | 0 => (FP.fin 1, FP.fin 0, FP.fin 0)
  | i + 1 =>
    if i + 1 ≤ pts.length - 2 then
      let prev := splineLMZF pts i
      let li := FP.sub
        (FP.mul (FP.fin 2)
          (FP.sub (FP.fin (ptAt pts (i + 2)).x) (FP.fin (ptAt pts i).x)))
        (FP.mul (splineHF pts i) prev.2.1)
      (li, FP.div (splineHF pts (i + 1)) li,
        FP.div (FP.sub (splineAlphaF pts (i + 1)) (FP.mul (splineHF pts i) prev.2.2))
          li)
    else (FP.fin 1, FP.fin 0, FP.fin 0)

/-- IEEE run of the back substitution `c[j]`. -/
noncomputable def splineCcoefF (pts : List CurvePoint) (j : Nat) : FP :=
  if pts.length - 1 ≤ j then FP.fin 0
  else
    FP.sub (splineLMZF pts j).2.2
      (FP.mul (splineLMZF pts j).2.1 (splineCcoefF pts (j + 1)))
termination_by pts.length - 1 - j
decreasing_by
  rename_i h
  omega

/-- IEEE run of `b[j]`. -/
noncomputable def splineBcoefF (pts : List CurvePoint) (j : Nat) : FP :=
  FP.sub
    (FP.div (FP.sub (FP.fin (ptAt pts (j + 1)).y) (FP.fin (ptAt pts j).y))
      (splineHF pts j))
    (FP.div
      (FP.mul (splineHF pts j)
        (FP.add (splineCcoefF pts (j + 1)) (FP.mul (FP.fin 2) (splineCcoefF pts j))))
      (FP.fin 3))

/-- IEEE run of `d[j]`. -/
noncomputable def splineDcoefF (pts : List CurvePoint) (j : Nat) : FP :=
  FP.div (FP.sub (splineCcoefF pts (j + 1)) (splineCcoefF pts j))
    (FP.mul (FP.fin 3) (splineHF pts j))

/-- IEEE counterpart of `SplineSegment`: the breakpoint fields are copies
    of (finite) input coordinates, the cubic coefficients can be
    non-finite. -/
structure SplineSegmentF where
  a : ℝ
  b : FP
  c : FP
  d : FP
  x_start : ℝ
  x_end : ℝ

/-- Default IEEE segment for out-of-range reads. -/
noncomputable def dsegF : SplineSegmentF := ⟨0, FP.fin 0, FP.fin 0, FP.fin 0, 0, 0⟩

/-- IEEE run of `calculateSplineSegments`. -/
noncomputable def calculateSplineSegmentsF (pts : List CurvePoint) :
    List SplineSegmentF :=
  if pts.length < 2 then []
  else
    (List.range (pts.length - 1)).map fun i =>
      ⟨(ptAt pts i).y, splineBcoefF pts i, splineCcoefF pts i, splineDcoefF pts i,
        (ptAt pts i).x, (ptAt pts (i + 1)).x⟩

/-- IEEE run of the segment cubic
    `a + b*dx + c*dx*dx + d*dx*dx*dx` (left associated as in the source). -/
noncomputable def evalSegF (s : SplineSegmentF) (dx : ℝ) : FP :=
  FP.add
    (FP.add (FP.add (FP.fin s.a) (FP.mul s.b (FP.fin dx)))
      (FP.mul (FP.mul s.c (FP.fin dx)) (FP.fin dx)))
    (FP.mul (FP.mul (FP.mul s.d (FP.fin dx)) (FP.fin dx)) (FP.fin dx))

/-- IEEE counterpart of the `std::lower_bound` segment search (the
    compared breakpoints are finite). -/
noncomputable def findSegmentF : List SplineSegmentF → ℝ → SplineSegmentF
  | [], _ => dsegF
  | [s], _ => s
  | s :: s2 :: rest, x => if x ≤ s.x_end then s else findSegmentF (s2 :: rest) x

/-- IEEE run of `CubicSplineInterpolator::evaluate`. -/
noncomputable def evaluateF (segs : List SplineSegmentF) (x : ℝ) : FP :=
  match segs with
  | [] => FP.fin x
  | s0 :: rest =>
    if x ≤ s0.x_start then FP.fin s0.a
    else if ((s0 :: rest).getLastD dsegF).x_end ≤ x then
      evalSegF ((s0 :: rest).getLastD dsegF)
        (((s0 :: rest).getLastD dsegF).x_end - ((s0 :: rest).getLastD dsegF).x_start)
    else
      evalSegF (findSegmentF (s0 :: rest) x) (x - (findSegmentF (s0 :: rest) x).x_start)

open Classical in
/-- IEEE run of `std::clamp(v, 0.0, 1.0)`: both comparisons are false on
    NaN, so NaN passes through unclamped. -/
noncomputable def clamp01F (v : FP) : FP :=
  if FP.lt v (FP.fin 0) then FP.fin 0
  else if FP.lt (FP.fin 1) v then FP.fin 1
  else v

/-- IEEE run of `generateCubicSplineLUT`. -/
noncomputable def generateCubicSplineLUTF (pts : List CurvePoint) (size : Nat) :
    List FP :=
  (List.range size).map fun (i : Nat) =>
    clamp01F (evaluateF (calculateSplineSegmentsF pts) ((i : ℝ) / ((size : ℝ) - 1)))

/-!  ## General lemmas about the embedding  -/

theorem mapRange_getD {α : Type} (f : Nat → α) (n j : Nat) (d : α) (h : j < n) :
    ((List.range n).map f).getD j d = f j := by
  rw [List.getD_eq_getElem _ _ (by simp [h])]
  simp [h]

theorem getLastD_eq_getD {α : Type} (l : List α) (d : α) :
    l.getLastD d = l.getD (l.length - 1) d := by
  cases l with
  | nil => rfl
  | cons a t =>
    rw [List.getLastD_eq_getLast?, List.getLast?_eq_getElem?]
    simp [List.getD]

theorem ptAt_mem (pts : List CurvePoint) (i : Nat) (h : i < pts.length) :
    ptAt pts i ∈ pts := by
  rw [ptAt, List.getD_eq_getElem _ _ h]
  exact List.getElem_mem h

theorem clamp01_bounds (v : ℝ) : 0 ≤ clamp01 v ∧ clamp01 v ≤ 1 := by
  unfold clamp01
  by_cases h0 : v < 0
  · simp [h0]
  · by_cases h1 : 1 < v
    · simp [h0, h1]
    · push_neg at h0 h1
      rw [if_neg (not_lt.mpr h0), if_neg (not_lt.mpr h1)]
      exact ⟨h0, h1⟩

theorem clamp01_eq_self {v : ℝ} (h0 : 0 ≤ v) (h1 : v ≤ 1) : clamp01 v = v := by
  unfold clamp01
  rw [if_neg (not_lt.mpr h0), if_neg (not_lt.mpr h1)]

theorem ptAt_zero_eq_headD (pts : List CurvePoint) : ptAt pts 0 = pts.headD dpt := by
  cases pts <;> rfl

theorem sample_x_mem_unit {size i : Nat} (hs : 2 ≤ size) (hi : i < size) :
    0 ≤ (i : ℝ) / ((size : ℝ) - 1) ∧ (i : ℝ) / ((size : ℝ) - 1) ≤ 1 := by
  have hsize : (2 : ℝ) ≤ (size : ℝ) := by exact_mod_cast hs
  have hpos : (0 : ℝ) < (size : ℝ) - 1 := by linarith
  have hile : (i : ℝ) + 1 ≤ (size : ℝ) := by exact_mod_cast hi
  constructor
  · exact div_nonneg (Nat.cast_nonneg i) (le_of_lt hpos)
  · rw [div_le_one hpos]
    linarith

theorem getLastD_mem {l : List CurvePoint} (h : l ≠ []) : l.getLastD dpt ∈ l := by
  rw [getLastD_eq_getD, List.getD_eq_getElem _ _ (by
    cases l with
    | nil => exact absurd rfl h
    | cons a t => simp)]
  exact List.getElem_mem _

/-- Bounds for the bracketing scan of `linearInterpolate`: when the query
    lies strictly between the head's and the last point's `x`, the scan
    lands on a positive-width bracketing segment and returns a convex
    combination of two `y` values. -/
theorem linScan_bounds : ∀ (l : List CurvePoint) (x : ℝ),
    (∀ p ∈ l, 0 ≤ p.y ∧ p.y ≤ 1) → (l.headD dpt).x < x → x < (l.getLastD dpt).x →
    0 ≤ linScan l x ∧ linScan l x ≤ 1 := by
  intro l
  induction l with
  | nil =>
    intro x _ h1 h2
    simp [dpt, List.headD, List.getLastD] at h1 h2
    linarith
  | cons p t ih =>
    cases t with
    | nil =>
      intro x _ h1 h2
      simp [dpt, List.headD, List.getLastD] at h1 h2
      linarith
    | cons q r =>
      intro x hy h1 h2
      have hpx : p.x < x := h1
      have hlast : (p :: q :: r).getLastD dpt = (q :: r).getLastD dpt := by
        simp [List.getLastD]
      by_cases hc : p.x ≤ x ∧ x ≤ q.x
      · rw [linScan, if_pos hc]
        have hw : 0 < q.x - p.x := by
          have := hc.2
          linarith
        have ht0 : 0 ≤ (x - p.x) / (q.x - p.x) :=
          div_nonneg (by linarith) (le_of_lt hw)
        have ht1 : (x - p.x) / (q.x - p.x) ≤ 1 := (div_le_one hw).mpr (by linarith)
        have hpy := hy p (List.mem_cons_self p _)
        have hqy := hy q (by simp)
        constructor
        · nlinarith [mul_nonneg ht0 hqy.1,
            mul_nonneg (sub_nonneg.mpr ht1) hpy.1]
        · nlinarith [mul_nonneg (sub_nonneg.mpr ht1) (sub_nonneg.mpr hpy.2),
            mul_nonneg ht0 (sub_nonneg.mpr hqy.2)]
      · rw [linScan, if_neg hc]
        have hqx : q.x < x := by
          by_contra hq
          push_neg at hq
          exact hc ⟨le_of_lt hpx, hq⟩
        refine ih x (fun s hs => hy s (List.mem_cons_of_mem p hs)) hqx ?_
        rw [hlast] at h2
        exact h2

/-- Bounds for `linearInterpolate` on an accepted point set: the result is
    always in [0,1] even though the Linear LUT path never re-clamps. -/
theorem linearInterpolate_bounds (pts : List CurvePoint) (x : ℝ)
    (hy : ∀ p ∈ pts, 0 ≤ p.y ∧ p.y ≤ 1) (h2 : 2 ≤ pts.length) :
    0 ≤ linearInterpolate pts x ∧ linearInterpolate pts x ≤ 1 := by
  cases pts with
  | nil => simp at h2
  | cons p t =>
    cases t with
    | nil => simp at h2
    | cons q r =>
      rw [linearInterpolate]
      by_cases hb1 : x ≤ p.x
      · rw [if_pos hb1]
        exact hy p (List.mem_cons_self p _)
      · rw [if_neg hb1]
        by_cases hb2 : ((p :: q :: r).getLastD dpt).x ≤ x
        · rw [if_pos hb2]
          exact hy _ (getLastD_mem (by simp))
        · rw [if_neg hb2]
          push_neg at hb1 hb2
          exact linScan_bounds (p :: q :: r) x hy hb1 hb2

/-- The two-point ramp `[(0,0),(1,1)]` is an accepted point set. -/
theorem validPointSet_unit_pair : validPointSet [⟨0, 0⟩, ⟨1, 1⟩] := by
  refine ⟨by simp, ?_, ?_⟩
  · intro p hp
    rcases List.mem_cons.mp hp with h | hp
    · rw [h]; norm_num
    rcases List.mem_cons.mp hp with h | hp
    · rw [h]; norm_num
    · simp at hp
  · exact List.chain'_cons.mpr ⟨by norm_num, List.chain'_singleton _⟩

theorem sortedByX_pairwise {l : List CurvePoint} (h : sortedByX l) :
    l.Pairwise fun a b => a.x ≤ b.x := by
  have h' : l.Chain' fun a b : CurvePoint => a.x ≤ b.x :=
    List.Chain'.imp (fun a b hab => not_lt.mp hab) h
  haveI : IsTrans CurvePoint fun a b => a.x ≤ b.x :=
    ⟨fun _ _ _ hab hbc => le_trans hab hbc⟩
  exact List.chain'_iff_pairwise.mp h'

theorem headD_eq_getD {α : Type} (l : List α) (d : α) : l.headD d = l.getD 0 d := by
  cases l <;> rfl

theorem ptAt_x_mono {pts : List CurvePoint} (h : sortedByX pts) {i j : Nat}
    (hij : i ≤ j) (hj : j < pts.length) : (ptAt pts i).x ≤ (ptAt pts j).x := by
  rcases eq_or_lt_of_le hij with rfl | hlt
  · exact le_refl _
  · have hp := sortedByX_pairwise h
    rw [ptAt, ptAt, List.getD_eq_getElem _ _ (lt_of_le_of_lt hij hj),
      List.getD_eq_getElem _ _ hj]
    exact List.pairwise_iff_getElem.mp hp i j _ hj hlt

theorem pairwiseX_sortedByX {l : List CurvePoint}
    (h : l.Pairwise fun a b => a.x ≤ b.x) : sortedByX l := by
  unfold sortedByX
  exact List.Chain'.imp (fun a b hab => not_lt.mpr hab) (List.Pairwise.chain' h)

theorem insertX_perm (p : CurvePoint) (l : List CurvePoint) :
    (insertX p l).Perm (p :: l) := by
  induction l with
  | nil => simp [insertX]
  | cons q t ih =>
    unfold insertX
    by_cases h : p.x < q.x
    · rw [if_pos h]
    · rw [if_neg h]
      exact List.Perm.trans (List.Perm.cons q ih) (List.Perm.swap p q t)

theorem insertX_mem {r p : CurvePoint} {l : List CurvePoint}
    (h : r ∈ insertX p l) : r = p ∨ r ∈ l := by
  have := (insertX_perm p l).mem_iff.mp h
  simpa using this

theorem insertX_pairwise {p : CurvePoint} {l : List CurvePoint}
    (h : l.Pairwise fun a b => a.x ≤ b.x) :
    (insertX p l).Pairwise fun a b => a.x ≤ b.x := by
  induction l with
  | nil => simp [insertX]
  | cons q t ih =>
    rw [List.pairwise_cons] at h
    unfold insertX
    by_cases hpq : p.x < q.x
    · rw [if_pos hpq]
      refine List.pairwise_cons.mpr ⟨?_, List.pairwise_cons.mpr ⟨h.1, h.2⟩⟩
      intro r hr
      rcases List.mem_cons.mp hr with hr | hr
      · rw [hr]; exact le_of_lt hpq
      · exact le_trans (le_of_lt hpq) (h.1 r hr)
    · rw [if_neg hpq]
      refine List.pairwise_cons.mpr ⟨?_, ih h.2⟩
      intro r hr
      rcases insertX_mem hr with hr | hr
      · rw [hr]; exact not_lt.mp hpq
      · exact h.1 r hr

theorem insertSortX_perm (l : List CurvePoint) : (insertSortX l).Perm l := by
  induction l with
  | nil => simp [insertSortX]
  | cons p t ih =>
    unfold insertSortX
    exact List.Perm.trans (insertX_perm p (insertSortX t)) (List.Perm.cons p ih)

theorem insertSortX_pairwise (l : List CurvePoint) :
    (insertSortX l).Pairwise fun a b => a.x ≤ b.x := by
  induction l with
  | nil => simp [insertSortX]
  | cons p t ih =>
    unfold insertSortX
    exact insertX_pairwise ih

/-- `insertSortX` is one behaviour `std::sort` with comparator `a.x < b.x`
    may exhibit. -/
theorem insertSortX_spec : stdSortSpec insertSortX := by
  intro l
  exact ⟨insertSortX_perm l, pairwiseX_sortedByX (insertSortX_pairwise l)⟩

theorem splineH_pos {pts : List CurvePoint} (hstrict : strictlyIncreasingX pts)
    {j : Nat} (hj : j < pts.length - 1) : 0 < splineH pts j := by
  have h := List.chain'_iff_get.mp hstrict j hj
  unfold splineH
  rw [ptAt, ptAt, List.getD_eq_get _ dpt (by omega), List.getD_eq_get _ dpt (by omega)]
  exact sub_pos.mpr h

theorem splineLMZ_succ (pts : List CurvePoint) (i : Nat) (h : i + 1 ≤ pts.length - 2) :
    splineLMZ pts (i + 1) =
      (2 * ((ptAt pts (i + 2)).x - (ptAt pts i).x) -
          splineH pts i * (splineLMZ pts i).2.1,
        splineH pts (i + 1) /
          (2 * ((ptAt pts (i + 2)).x - (ptAt pts i).x) -
            splineH pts i * (splineLMZ pts i).2.1),
        (splineAlpha pts (i + 1) - splineH pts i * (splineLMZ pts i).2.2) /
          (2 * ((ptAt pts (i + 2)).x - (ptAt pts i).x) -
            splineH pts i * (splineLMZ pts i).2.1)) := by
  rw [splineLMZ, if_pos h]

/-- Positivity of the tridiagonal pivots `l[i]` (with the invariant
    `0 ≤ mu[i] < 1`) on a strictly increasing point set — the standard
    diagonal-dominance argument for the natural-spline system. -/
theorem splineL_bounds (pts : List CurvePoint) (hstrict : strictlyIncreasingX pts) :
    ∀ i, i ≤ pts.length - 2 →
      0 < (splineLMZ pts i).1 ∧ 0 ≤ (splineLMZ pts i).2.1 ∧
        (splineLMZ pts i).2.1 < 1 := by
  intro i
  induction i with
  | zero =>
    intro _
    refine ⟨by norm_num [splineLMZ], by norm_num [splineLMZ], by norm_num [splineLMZ]⟩
  | succ i ih =>
    intro hle
    obtain ⟨hl, hmu0, hmu1⟩ := ih (by omega)
    have hHi : 0 < splineH pts i := splineH_pos hstrict (by omega)
    have hHi1 : 0 < splineH pts (i + 1) := splineH_pos hstrict (by omega)
    have hx : (ptAt pts (i + 2)).x - (ptAt pts i).x =
        splineH pts (i + 1) + splineH pts i := by
      unfold splineH
      ring
    have hhm : splineH pts i * (splineLMZ pts i).2.1 < splineH pts i :=
      mul_lt_of_lt_one_right hHi hmu1
    rw [splineLMZ_succ pts i hle, hx]
    have hLpos : 0 < 2 * (splineH pts (i + 1) + splineH pts i) -
        splineH pts i * (splineLMZ pts i).2.1 := by linarith
    have hlt : splineH pts (i + 1) < 2 * (splineH pts (i + 1) + splineH pts i) -
        splineH pts i * (splineLMZ pts i).2.1 := by linarith
    exact ⟨hLpos, div_nonneg (le_of_lt hHi1) (le_of_lt hLpos),
      (div_lt_one hLpos).mpr hlt⟩

theorem identityLUT_length (n : Nat) : (identityLUT n).length = n := by
  simp [identityLUT]

theorem identityLUT_getD {n j : Nat} (h : j < n) :
    (identityLUT n).getD j 0 = (j : ℝ) / ((n : ℝ) - 1) :=
  mapRange_getD _ _ _ _ h

/-- On the identity LUT the per-sample lookup reproduces the normalised
    input exactly. -/
theorem lutLookup_identity (n v : Nat) (hn : 2 ≤ n) (hv : v ≤ 255) :
    lutLookup (identityLUT n) v = (v : ℝ) / 255 := by
  have hs1 : (1 : ℝ) ≤ (n : ℝ) - 1 := by
    have : (2 : ℝ) ≤ (n : ℝ) := by exact_mod_cast hn
    linarith
  have hspos : (0 : ℝ) < (n : ℝ) - 1 := by linarith
  have hpos0 : 0 ≤ ((v : ℝ) / 255) * ((n : ℝ) - 1) :=
    mul_nonneg (div_nonneg (Nat.cast_nonneg v) (by norm_num)) (le_of_lt hspos)
  have hcast : castInt (((v : ℝ) / 255) * ((n : ℝ) - 1)) =
      ⌊((v : ℝ) / 255) * ((n : ℝ) - 1)⌋ := by
    unfold castInt
    rw [if_neg (not_lt.mpr hpos0)]
  have hncast : ((n - 1 : ℕ) : ℝ) = (n : ℝ) - 1 := by
    rw [Nat.cast_sub (by omega : 1 ≤ n)]
    norm_num
  simp only [lutLookup, identityLUT_length, hcast]
  by_cases hbig : (n : Int) - 1 ≤ ⌊((v : ℝ) / 255) * ((n : ℝ) - 1)⌋
  · rw [if_pos hbig]
    have hle : ((n : ℝ) - 1) ≤ ((v : ℝ) / 255) * ((n : ℝ) - 1) := by
      have := Int.le_floor.mp hbig
      calc ((n : ℝ) - 1) = (((n : Int) - 1 : Int) : ℝ) := by push_cast; ring
        _ ≤ _ := this
    have hv255 : (255 : ℝ) ≤ (v : ℝ) := by
      have h1 : (1 : ℝ) ≤ (v : ℝ) / 255 := by
        by_contra hlt
        push_neg at hlt
        nlinarith
      exact (one_le_div (by norm_num : (0 : ℝ) < 255)).mp h1
    have hveq : (v : ℝ) = 255 := by
      have : (v : ℝ) ≤ 255 := by exact_mod_cast hv
      linarith
    rw [identityLUT_getD (by omega : n - 1 < n), hncast, div_self (ne_of_gt hspos),
      hveq]
    norm_num
  · rw [if_neg hbig]
    push_neg at hbig
    have hidx0 : 0 ≤ ⌊((v : ℝ) / 255) * ((n : ℝ) - 1)⌋ := Int.floor_nonneg.mpr hpos0
    set j : Nat := (⌊((v : ℝ) / 255) * ((n : ℝ) - 1)⌋).toNat with hjdef
    have hjcast : ((j : Int) : ℝ) = (j : ℝ) := by push_cast; ring
    have hjint : (j : Int) = ⌊((v : ℝ) / 255) * ((n : ℝ) - 1)⌋ := by
      rw [hjdef]
      exact Int.toNat_of_nonneg hidx0
    have hjlt : j < n - 1 := by
      have h1 : (j : Int) < (n : Int) - 1 := by rw [hjint]; omega
      omega
    have hjr : ((j : ℝ)) = ((⌊((v : ℝ) / 255) * ((n : ℝ) - 1)⌋ : Int) : ℝ) := by
      rw [← hjint]
      simp
    rw [identityLUT_getD (by omega : j < n), identityLUT_getD (by omega : j + 1 < n)]
    rw [← hjr]
    have hexp : ((j : ℝ) / ((n : ℝ) - 1)) +
        (((v : ℝ) / 255) * ((n : ℝ) - 1) - (j : ℝ)) *
          ((((j + 1 : ℕ) : ℝ)) / ((n : ℝ) - 1) - (j : ℝ) / ((n : ℝ) - 1)) =
        (v : ℝ) / 255 := by
      push_cast
      field_simp
      ring
    exact hexp

/-- On the identity LUT every 8-bit sample maps back to itself. -/
theorem mapByte_identity (n v : Nat) (hn : 2 ≤ n) (hv : v ≤ 255) :
    mapByte (identityLUT n) v = v := by
  unfold mapByte
  rw [lutLookup_identity n v hn hv]
  rw [div_mul_cancel₀ (v : ℝ) (by norm_num : (255 : ℝ) ≠ 0)]
  by_cases hv255 : v = 255
  · subst hv255
    unfold clamp255
    rw [if_neg (by push_cast; norm_num), if_pos (by push_cast; norm_num)]
    have h255 : ⌊(255 : ℝ)⌋ = (255 : Int) := by norm_num
    rw [h255]
    rfl
  · have hv' : v ≤ 254 := by omega
    have hvr : (v : ℝ) ≤ 254 := by exact_mod_cast hv'
    have h1 : ¬((v : ℝ) + 1 / 2 < 0) := by
      have : (0 : ℝ) ≤ (v : ℝ) := Nat.cast_nonneg v
      push_neg
      linarith
    have h2 : ¬((255 : ℝ) < (v : ℝ) + 1 / 2) := by
      push_neg
      linarith
    unfold clamp255
    rw [if_neg h1, if_neg h2]
    have hfl : ⌊(v : ℝ) + 1 / 2⌋ = (v : Int) := by
      rw [Int.floor_eq_iff]
      constructor
      · push_cast
        linarith [(Nat.cast_nonneg v : (0 : ℝ) ≤ (v : ℝ))]
      · push_cast
        linarith
    rw [hfl]
    simp

/-!  ## Claim theorems  -/

/-- C9: for every point set and every resolution, the LUT generated for
    curve type AIOptimized equals, sample for sample, the LUT generated for
    curve type CubicSpline from the same point set at the same
    resolution. -/
theorem c9_ai_optimized_equals_cubic_spline (pts : List CurvePoint) (size : Nat) :
    generateOptimizedLUT pts CURVE_TYPE_AI_OPTIMIZED size =
      generateOptimizedLUT pts CURVE_TYPE_CUBIC_SPLINE size := by
  unfold generateOptimizedLUT generateAIOptimizedLUT
  norm_num [CURVE_TYPE_AI_OPTIMIZED, CURVE_TYPE_CUBIC_SPLINE, CURVE_TYPE_LINEAR,
    CURVE_TYPE_BEZIER, CURVE_TYPE_PARAMETRIC]

/-- C10: `curve_generate_lut` performs no initialisation check — with a
    valid curve and non-null output pointers it succeeds and produces the
    LUT even in the uninitialised state, while `curve_create` (with valid
    points and a non-null out pointer) and `curve_apply_to_image` (with
    non-null arguments) return `CURVE_ERROR_NOT_INITIALIZED` in that same
    state. -/
theorem c10_generate_lut_skips_init_check (c : CurveData)
    (sort : List CurvePoint → List CurvePoint) (ty : Int) (inp out0 : ImageData) :
    curve_generate_lut false (some c) true true =
        (CURVE_SUCCESS, some (generateOptimizedLUT c.points c.type c.lut_size)) ∧
      (curve_create sort false (some [⟨0, 0⟩, ⟨1, 1⟩]) ty true).1 =
        CURVE_ERROR_NOT_INITIALIZED ∧
      (curve_apply_to_image false (some c) (some inp) (some out0)).1 =
        CURVE_ERROR_NOT_INITIALIZED := by
  refine ⟨?_, ?_, ?_⟩
  · simp [curve_generate_lut]
  · simp [curve_create]
  · simp [curve_apply_to_image]

/-- C2 counterexample: with a Lab-L channel target the image is NOT copied
    to the output buffer — on a 1×1 3-channel image whose input sample is 1
    and whose output buffer holds 0, the output sample is still 0 after
    applying the LUT. -/
theorem c2_lab_counterexample :
    (applyLUTCPU (identityLUT 4096)
        (⟨1, 1, 3, fun _ _ c => c + 1⟩ : ImageData)
        (⟨1, 1, 3, fun _ _ _ => 0⟩ : ImageData) CHANNEL_LAB_L).data 0 0 0 = 0 ∧
      (⟨1, 1, 3, fun _ _ c => c + 1⟩ : ImageData).data 0 0 0 = 1 := by
  constructor
  · simp [applyLUTCPU, getChannelIndex, CHANNEL_LAB_L, CHANNEL_RGB,
      CHANNEL_LUMINANCE, CHANNEL_RED, CHANNEL_GREEN, CHANNEL_BLUE]
  · rfl

/-- C2 amended: for a Lab-L, Lab-A or Lab-B channel target, `applyLUTCPU`
    writes nothing into the colour channels of the output buffer — every
    output sample keeps the output buffer's prior content, except the alpha
    channel of a 4-channel image, which is copied from the input.  The
    input image is not copied to the output. -/
theorem c2_lab_channels_inert_amended (lut : List ℝ) (inp out0 : ImageData)
    (y x c : Nat) :
    ((applyLUTCPU lut inp out0 CHANNEL_LAB_L).data y x c =
        if y < inp.height ∧ x < inp.width ∧ c < inp.channels then
          if inp.channels = 4 ∧ c = 3 then inp.data y x c else out0.data y x c
        else out0.data y x c) ∧
      ((applyLUTCPU lut inp out0 CHANNEL_LAB_A).data y x c =
        if y < inp.height ∧ x < inp.width ∧ c < inp.channels then
          if inp.channels = 4 ∧ c = 3 then inp.data y x c else out0.data y x c
        else out0.data y x c) ∧
      ((applyLUTCPU lut inp out0 CHANNEL_LAB_B).data y x c =
        if y < inp.height ∧ x < inp.width ∧ c < inp.channels then
          if inp.channels = 4 ∧ c = 3 then inp.data y x c else out0.data y x c
        else out0.data y x c) := by
  refine ⟨?_, ?_, ?_⟩ <;>
    simp [applyLUTCPU, getChannelIndex, CHANNEL_LAB_L, CHANNEL_LAB_A,
      CHANNEL_LAB_B, CHANNEL_RGB, CHANNEL_LUMINANCE, CHANNEL_RED,
      CHANNEL_GREEN, CHANNEL_BLUE]

/-- C4 counterexample: `curve_create` accepts the out-of-range curve-type
    value 99 — with valid points, in the initialised state, it returns
    `CURVE_SUCCESS` (not `CURVE_ERROR_INVALID_PARAMS`), storing the unknown
    type in the curve. -/
theorem c4_unknown_type_counterexample :
    (curve_create insertSortX true (some [⟨0, 0⟩, ⟨1, 1⟩]) 99 true).1 =
        CURVE_SUCCESS ∧
      CURVE_SUCCESS ≠ CURVE_ERROR_INVALID_PARAMS ∧
      ¬((99 : Int) = CURVE_TYPE_LINEAR ∨ (99 : Int) = CURVE_TYPE_CUBIC_SPLINE ∨
        (99 : Int) = CURVE_TYPE_BEZIER ∨ (99 : Int) = CURVE_TYPE_PARAMETRIC ∨
        (99 : Int) = CURVE_TYPE_AI_OPTIMIZED) := by
  refine ⟨?_, ?_, ?_⟩
  · simp [curve_create]
  · simp [CURVE_SUCCESS, CURVE_ERROR_INVALID_PARAMS]
  · simp [CURVE_TYPE_LINEAR, CURVE_TYPE_CUBIC_SPLINE, CURVE_TYPE_BEZIER,
      CURVE_TYPE_PARAMETRIC, CURVE_TYPE_AI_OPTIMIZED]

/-- C4 amended: `curve_create` performs no validation of the curve-type
    value — any type is accepted given valid points — and an unknown type
    IS observable at LUT-generation time: `generateOptimizedLUT` falls
    through its switch and returns the zero-initialised table of the
    requested size. -/
theorem c4_unknown_type_amended (ty : Int)
    (hty : ¬(ty = CURVE_TYPE_LINEAR ∨ ty = CURVE_TYPE_CUBIC_SPLINE ∨
      ty = CURVE_TYPE_BEZIER ∨ ty = CURVE_TYPE_PARAMETRIC ∨
      ty = CURVE_TYPE_AI_OPTIMIZED))
    (sort : List CurvePoint → List CurvePoint) (inp : List CurvePoint)
    (h2 : 2 ≤ inp.length) (size : Nat) :
    (curve_create sort true (some inp) ty true).1 = CURVE_SUCCESS ∧
      generateOptimizedLUT inp ty size = List.replicate size 0 := by
  push_neg at hty
  obtain ⟨h0, h1, hb, hp, ha⟩ := hty
  constructor
  · simp [curve_create, Nat.not_lt.mpr h2]
  · unfold generateOptimizedLUT
    rw [if_neg h0, if_neg h1, if_neg hb, if_neg hp, if_neg ha]

/-- C4 witness: instantiation of the amended theorem at type value 99. -/
theorem c4_witness :
    ¬((99 : Int) = CURVE_TYPE_LINEAR ∨ (99 : Int) = CURVE_TYPE_CUBIC_SPLINE ∨
        (99 : Int) = CURVE_TYPE_BEZIER ∨ (99 : Int) = CURVE_TYPE_PARAMETRIC ∨
        (99 : Int) = CURVE_TYPE_AI_OPTIMIZED) ∧
      2 ≤ ([⟨0, 0⟩, ⟨1, 1⟩] : List CurvePoint).length ∧
      ((curve_create insertSortX true (some [⟨0, 0⟩, ⟨1, 1⟩]) 99 true).1 =
          CURVE_SUCCESS ∧
        generateOptimizedLUT [⟨0, 0⟩, ⟨1, 1⟩] 99 7 = List.replicate 7 0) :=
  ⟨by simp [CURVE_TYPE_LINEAR, CURVE_TYPE_CUBIC_SPLINE, CURVE_TYPE_BEZIER,
      CURVE_TYPE_PARAMETRIC, CURVE_TYPE_AI_OPTIMIZED],
    by simp,
    c4_unknown_type_amended 99
      (by simp [CURVE_TYPE_LINEAR, CURVE_TYPE_CUBIC_SPLINE, CURVE_TYPE_BEZIER,
        CURVE_TYPE_PARAMETRIC, CURVE_TYPE_AI_OPTIMIZED])
      insertSortX [⟨0, 0⟩, ⟨1, 1⟩] (by simp) 7⟩

/-- C3 counterexample: `std::sort` is not stable, and an admissible
    behaviour of it (exhibited by `insertSortX`, which satisfies the full
    `std::sort` contract `stdSortSpec`) makes `curve_create` store the two
    equal-`x` points `(0.5, 0), (0.5, 1)` in reversed relative order. -/
theorem c3_stability_counterexample :
    stdSortSpec insertSortX ∧
      (curve_create insertSortX true
          (some [⟨1 / 2, 0⟩, ⟨1 / 2, 1⟩]) CURVE_TYPE_LINEAR true).2 =
        some ⟨[⟨1 / 2, 1⟩, ⟨1 / 2, 0⟩], CURVE_TYPE_LINEAR, CHANNEL_RGB, 1, 0, 1,
          DEFAULT_LUT_SIZE⟩ ∧
      ¬ keepsTieOrder [⟨1 / 2, 0⟩, ⟨1 / 2, 1⟩] [⟨1 / 2, 1⟩, ⟨1 / 2, 0⟩] := by
  refine ⟨insertSortX_spec, ?_, ?_⟩
  · have hm : ([⟨1 / 2, 0⟩, ⟨1 / 2, 1⟩] : List CurvePoint).map clampPoint =
        [⟨1 / 2, 0⟩, ⟨1 / 2, 1⟩] := by
      norm_num [clampPoint, clamp01]
    have hs : insertSortX [(⟨1 / 2, 0⟩ : CurvePoint), ⟨1 / 2, 1⟩] =
        [⟨1 / 2, 1⟩, ⟨1 / 2, 0⟩] := by
      norm_num [insertSortX, insertX]
    simp only [curve_create]
    norm_num [hm, hs]
  · intro h
    obtain ⟨i2, j2, hi2, hj2, hlt, he1, he2⟩ :=
      h 0 1 (by norm_num) (by norm_num) (by norm_num) (by norm_num)
    simp at hi2 hj2
    interval_cases i2 <;> interval_cases j2 <;> simp_all

/-- C3 amended: `curve_create` stores a permutation of the clamped input
    points sorted ascending by `x`; every stored coordinate lies in [0,1].
    The sort is `std::sort`, which is not stable, so the relative order of
    points with equal `x` is not guaranteed. -/
theorem c3_sorted_permutation_amended (sort : List CurvePoint → List CurvePoint)
    (hsort : stdSortSpec sort) (inp : List CurvePoint) (h2 : 2 ≤ inp.length)
    (ty : Int) :
    ∃ c : CurveData,
      curve_create sort true (some inp) ty true = (CURVE_SUCCESS, some c) ∧
        c.points.Perm (inp.map clampPoint) ∧
        (c.points.Pairwise fun a b => a.x ≤ b.x) ∧
        ∀ p ∈ c.points, 0 ≤ p.x ∧ p.x ≤ 1 ∧ 0 ≤ p.y ∧ p.y ≤ 1 := by
  refine ⟨⟨sort (inp.map clampPoint), ty, CHANNEL_RGB, 1, 0, 1, DEFAULT_LUT_SIZE⟩,
    ?_, (hsort _).1, sortedByX_pairwise (hsort _).2, ?_⟩
  · simp [curve_create, Nat.not_lt.mpr h2]
  · intro p hp
    have hmem : p ∈ inp.map clampPoint := ((hsort _).1).mem_iff.mp hp
    obtain ⟨q, _, hq⟩ := List.mem_map.mp hmem
    rw [← hq]
    have hx := clamp01_bounds q.x
    have hy := clamp01_bounds q.y
    exact ⟨hx.1, hx.2, hy.1, hy.2⟩

/-- C3 witness: instantiation of the amended theorem with the conformant
    sort `insertSortX` and two concrete points. -/
theorem c3_witness :
    stdSortSpec insertSortX ∧
      2 ≤ ([⟨0, 0⟩, ⟨1, 1⟩] : List CurvePoint).length ∧
      ∃ c : CurveData,
        curve_create insertSortX true (some [⟨0, 0⟩, ⟨1, 1⟩]) 0 true =
            (CURVE_SUCCESS, some c) ∧
          c.points.Perm (([⟨0, 0⟩, ⟨1, 1⟩] : List CurvePoint).map clampPoint) ∧
          (c.points.Pairwise fun a b => a.x ≤ b.x) ∧
          ∀ p ∈ c.points, 0 ≤ p.x ∧ p.x ≤ 1 ∧ 0 ≤ p.y ∧ p.y ≤ 1 :=
  ⟨insertSortX_spec, by simp,
    c3_sorted_permutation_amended insertSortX insertSortX_spec
      [⟨0, 0⟩, ⟨1, 1⟩] (by simp) 0⟩

/-- C7: every parametric LUT sample matches the spec formula
    `clamp(lift + (gain - lift) · (i/(resolution-1))^gamma, 0, 1)` with
    `lift` the first point's `y`, `gain` the last point's `y` and `gamma`
    equal to `points[1].y / points[1].x` when the set has more than two
    points and 1 otherwise; the points `[(0,0),(0.5,0.5),(1,1)]` give
    `gamma = 1` and the identity function at every resolution. -/
theorem c7_parametric_formula_and_identity (pts : List CurvePoint) (size : Nat)
    (hv : validPointSet pts) (hs : 2 ≤ size) :
    (∀ i, i < size →
        (generateParametricLUT pts size).getD i 0 = parametricSpecSample pts size i) ∧
      (pts = [⟨0, 0⟩, ⟨1 / 2, 1 / 2⟩, ⟨1, 1⟩] →
        ∀ i, i < size →
          (generateParametricLUT pts size).getD i 0 = (i : ℝ) / ((size : ℝ) - 1)) := by
  obtain ⟨h2, -, -⟩ := hv
  constructor
  · intro i hi
    cases pts with
    | nil => simp at h2
    | cons p rest =>
      simp only [generateParametricLUT, parametricSpecSample]
      rw [mapRange_getD _ _ _ _ hi]
      have hlen0 : ¬((p :: rest).length = 0) := by simp
      have hlen1 : 1 < (p :: rest).length := by
        simp only [List.length_cons] at h2 ⊢
        omega
      rw [if_neg hlen0, if_pos hlen1, ptAt_zero_eq_headD]
  · intro hpts i hi
    subst hpts
    simp only [generateParametricLUT]
    rw [mapRange_getD _ _ _ _ hi]
    have hg : (ptAt [⟨0, 0⟩, ⟨1 / 2, 1 / 2⟩, ⟨1, 1⟩] 1) = (⟨1 / 2, 1 / 2⟩ : CurvePoint) :=
      rfl
    have hgamma : (if 2 < ([⟨0, 0⟩, ⟨1 / 2, 1 / 2⟩, ⟨1, 1⟩] : List CurvePoint).length
        then (ptAt [⟨0, 0⟩, ⟨1 / 2, 1 / 2⟩, ⟨1, 1⟩] 1).y /
          (ptAt [⟨0, 0⟩, ⟨1 / 2, 1 / 2⟩, ⟨1, 1⟩] 1).x
        else 1) = (1 : ℝ) := by
      rw [if_pos (by simp), hg]
      norm_num
    rw [hgamma]
    have hx := sample_x_mem_unit hs hi
    rw [Real.rpow_one]
    have hlift : (if ([⟨0, 0⟩, ⟨1 / 2, 1 / 2⟩, ⟨1, 1⟩] : List CurvePoint).length = 0
        then (0 : ℝ) else (ptAt [⟨0, 0⟩, ⟨1 / 2, 1 / 2⟩, ⟨1, 1⟩] 0).y) = 0 := by
      rw [if_neg (by simp)]
      rfl
    have hgain : (if 1 < ([⟨0, 0⟩, ⟨1 / 2, 1 / 2⟩, ⟨1, 1⟩] : List CurvePoint).length
        then (([⟨0, 0⟩, ⟨1 / 2, 1 / 2⟩, ⟨1, 1⟩] : List CurvePoint).getLastD dpt).y
        else 1) = (1 : ℝ) := by
      rw [if_pos (by simp)]
      rfl
    rw [hlift, hgain]
    rw [show (0 : ℝ) + (1 - 0) * ((i : ℝ) / ((size : ℝ) - 1)) =
      (i : ℝ) / ((size : ℝ) - 1) by ring]
    exact clamp01_eq_self hx.1 hx.2

/-- C7 witness: instantiation at the identity point set and resolution 5. -/
theorem c7_witness :
    validPointSet [⟨0, 0⟩, ⟨1 / 2, 1 / 2⟩, ⟨1, 1⟩] ∧ 2 ≤ 5 ∧
      ((∀ i, i < 5 →
          (generateParametricLUT [⟨0, 0⟩, ⟨1 / 2, 1 / 2⟩, ⟨1, 1⟩] 5).getD i 0 =
            parametricSpecSample [⟨0, 0⟩, ⟨1 / 2, 1 / 2⟩, ⟨1, 1⟩] 5 i) ∧
        ([⟨0, 0⟩, ⟨1 / 2, 1 / 2⟩, ⟨1, 1⟩] =
            ([⟨0, 0⟩, ⟨1 / 2, 1 / 2⟩, ⟨1, 1⟩] : List CurvePoint) →
          ∀ i, i < 5 →
            (generateParametricLUT [⟨0, 0⟩, ⟨1 / 2, 1 / 2⟩, ⟨1, 1⟩] 5).getD i 0 =
              (i : ℝ) / ((5 : ℝ) - 1))) := by
  have hv : validPointSet [⟨0, 0⟩, ⟨1 / 2, 1 / 2⟩, ⟨1, 1⟩] := by
    refine ⟨by simp, ?_, ?_⟩
    · intro p hp
      rcases List.mem_cons.mp hp with h | hp
      · rw [h]; norm_num
      rcases List.mem_cons.mp hp with h | hp
      · rw [h]; norm_num
      rcases List.mem_cons.mp hp with h | hp
      · rw [h]; norm_num
      · simp at hp
    · unfold sortedByX
      refine List.chain'_cons.mpr ⟨by norm_num, List.chain'_cons.mpr ⟨by norm_num, ?_⟩⟩
      exact List.chain'_singleton _
  exact ⟨hv, by norm_num,
    c7_parametric_formula_and_identity [⟨0, 0⟩, ⟨1 / 2, 1 / 2⟩, ⟨1, 1⟩] 5 hv
      (by norm_num)⟩

/-- C6 amended: on a segment list built from an accepted point set,
    evaluation below the first breakpoint returns the first segment's
    cubic at `dx = 0`, evaluation above the last breakpoint returns the
    last segment's cubic at `dx = x_end - x_start` (the boundary cubic
    extended, not a flat clamp), and — provided the first point's `x` is
    below 1 — these boundary formulas determine the first and last LUT
    sample of `generateCubicSplineLUT`.  The proviso excludes the accepted
    degenerate sets whose every `x` equals 1, where evaluation at the grid
    point `x = 1` takes the below-first branch instead (see the
    counterexample). -/
theorem c6_spline_boundary_extrapolation (pts : List CurvePoint) (size : Nat)
    (hv : validPointSet pts) (hs : 2 ≤ size) (hx1 : (ptAt pts 0).x < 1) :
    (∀ x : ℝ, x < ((calculateSplineSegments pts).headD dseg).x_start →
        CubicSplineInterpolator.evaluate (calculateSplineSegments pts) x =
          evalSeg ((calculateSplineSegments pts).headD dseg) 0) ∧
      (∀ x : ℝ, ((calculateSplineSegments pts).getLastD dseg).x_end < x →
        CubicSplineInterpolator.evaluate (calculateSplineSegments pts) x =
          evalSeg ((calculateSplineSegments pts).getLastD dseg)
            (((calculateSplineSegments pts).getLastD dseg).x_end -
              ((calculateSplineSegments pts).getLastD dseg).x_start)) ∧
      (generateCubicSplineLUT pts size).getD 0 0 =
        clamp01 (evalSeg ((calculateSplineSegments pts).headD dseg) 0) ∧
      (generateCubicSplineLUT pts size).getD (size - 1) 0 =
        clamp01 (evalSeg ((calculateSplineSegments pts).getLastD dseg)
          (((calculateSplineSegments pts).getLastD dseg).x_end -
            ((calculateSplineSegments pts).getLastD dseg).x_start)) := by
  obtain ⟨h2, hxy, hsort⟩ := hv
  have hnot : ¬ pts.length < 2 := Nat.not_lt.mpr h2
  have hseglen : (calculateSplineSegments pts).length = pts.length - 1 := by
    unfold calculateSplineSegments
    rw [if_neg hnot]
    simp
  have hpos : 0 < pts.length - 1 := by omega
  have hhead : (calculateSplineSegments pts).headD dseg =
      ⟨(ptAt pts 0).y, splineBcoef pts 0, splineCcoef pts 0, splineDcoef pts 0,
        (ptAt pts 0).x, (ptAt pts 1).x⟩ := by
    rw [headD_eq_getD]
    unfold calculateSplineSegments
    rw [if_neg hnot, mapRange_getD _ _ _ _ hpos]
  have hidx : pts.length - 2 + 1 = pts.length - 1 := by omega
  have hlast : (calculateSplineSegments pts).getLastD dseg =
      ⟨(ptAt pts (pts.length - 2)).y, splineBcoef pts (pts.length - 2),
        splineCcoef pts (pts.length - 2), splineDcoef pts (pts.length - 2),
        (ptAt pts (pts.length - 2)).x, (ptAt pts (pts.length - 2 + 1)).x⟩ := by
    rw [getLastD_eq_getD, hseglen]
    unfold calculateSplineSegments
    rw [if_neg hnot]
    have : pts.length - 1 - 1 = pts.length - 2 := by omega
    rw [this, mapRange_getD _ _ _ _ (by omega)]
  have hx0 : 0 ≤ (ptAt pts 0).x := (hxy _ (ptAt_mem pts 0 (by omega))).1
  have hxn : (ptAt pts (pts.length - 1)).x ≤ 1 :=
    (hxy _ (ptAt_mem pts (pts.length - 1) (by omega))).2.1
  have hmono : (ptAt pts 0).x ≤ (ptAt pts (pts.length - 1)).x :=
    ptAt_x_mono hsort (by omega) (by omega)
  rcases hsegs : calculateSplineSegments pts with - | ⟨s0, rest⟩
  · rw [hsegs] at hseglen
    simp at hseglen
    omega
  rw [hsegs] at hhead hlast
  have hheadD : (s0 :: rest).headD dseg = s0 := rfl
  rw [hheadD] at hhead
  have hstart : s0.x_start = (ptAt pts 0).x := by rw [hhead]
  have hend : ((s0 :: rest).getLastD dseg).x_end = (ptAt pts (pts.length - 1)).x := by
    rw [hlast, hidx]
  refine ⟨?_, ?_, ?_, ?_⟩
  · intro x hx
    rw [hheadD] at hx ⊢
    rw [CubicSplineInterpolator.evaluate, if_pos (le_of_lt hx)]
    unfold evalSeg
    ring
  · intro x hx
    have hsx : s0.x_start < x := by
      rw [hstart]
      rw [hend] at hx
      linarith
    rw [CubicSplineInterpolator.evaluate, if_neg (not_le.mpr hsx),
      if_pos (le_of_lt hx)]
  · unfold generateCubicSplineLUT
    rw [mapRange_getD _ _ _ _ (by omega : 0 < size), hsegs]
    rw [Nat.cast_zero, zero_div]
    congr 1
    rw [CubicSplineInterpolator.evaluate, if_pos (by rw [hstart]; exact hx0), hheadD]
    unfold evalSeg
    ring
  · unfold generateCubicSplineLUT
    rw [mapRange_getD _ _ _ _ (by omega : size - 1 < size), hsegs]
    have hcast : ((size - 1 : ℕ) : ℝ) = (size : ℝ) - 1 := by
      rw [Nat.cast_sub (by omega : 1 ≤ size)]
      norm_num
    have hne : ((size : ℝ) - 1) ≠ 0 := by
      have : (2 : ℝ) ≤ (size : ℝ) := by exact_mod_cast hs
      linarith
    rw [hcast, div_self hne]
    congr 1
    rw [CubicSplineInterpolator.evaluate,
      if_neg (not_le.mpr (by rw [hstart]; exact hx1)),
      if_pos (by rw [hend]; exact hxn)]

/-- C6 witness: instantiation at the two-point ramp and resolution 4. -/
theorem c6_witness :
    validPointSet [⟨0, 0⟩, ⟨1, 1⟩] ∧ (2 : Nat) ≤ 4 ∧
      (ptAt [⟨0, 0⟩, ⟨1, 1⟩] 0).x < 1 ∧
      ((∀ x : ℝ,
          x < ((calculateSplineSegments [⟨0, 0⟩, ⟨1, 1⟩]).headD dseg).x_start →
          CubicSplineInterpolator.evaluate (calculateSplineSegments [⟨0, 0⟩, ⟨1, 1⟩]) x =
            evalSeg ((calculateSplineSegments [⟨0, 0⟩, ⟨1, 1⟩]).headD dseg) 0) ∧
        (∀ x : ℝ,
          ((calculateSplineSegments [⟨0, 0⟩, ⟨1, 1⟩]).getLastD dseg).x_end < x →
          CubicSplineInterpolator.evaluate (calculateSplineSegments [⟨0, 0⟩, ⟨1, 1⟩]) x =
            evalSeg ((calculateSplineSegments [⟨0, 0⟩, ⟨1, 1⟩]).getLastD dseg)
              (((calculateSplineSegments [⟨0, 0⟩, ⟨1, 1⟩]).getLastD dseg).x_end -
                ((calculateSplineSegments [⟨0, 0⟩, ⟨1, 1⟩]).getLastD dseg).x_start)) ∧
        (generateCubicSplineLUT [⟨0, 0⟩, ⟨1, 1⟩] 4).getD 0 0 =
          clamp01 (evalSeg ((calculateSplineSegments [⟨0, 0⟩, ⟨1, 1⟩]).headD dseg) 0) ∧
        (generateCubicSplineLUT [⟨0, 0⟩, ⟨1, 1⟩] 4).getD (4 - 1) 0 =
          clamp01 (evalSeg ((calculateSplineSegments [⟨0, 0⟩, ⟨1, 1⟩]).getLastD dseg)
            (((calculateSplineSegments [⟨0, 0⟩, ⟨1, 1⟩]).getLastD dseg).x_end -
              ((calculateSplineSegments [⟨0, 0⟩, ⟨1, 1⟩]).getLastD dseg).x_start))) :=
  ⟨validPointSet_unit_pair, by norm_num, by norm_num [ptAt],
    c6_spline_boundary_extrapolation [⟨0, 0⟩, ⟨1, 1⟩] 4 validPointSet_unit_pair
      (by norm_num) (by norm_num [ptAt])⟩

/-- C6 counterexample: the original claim fails on the program at the
    degenerate accepted set `[(1,0),(1,1/2),(1,1)]` (every `x` equal to
    1): the last LUT sample is 0, produced by the below-first branch of
    `evaluate` at the grid point `x = 1`, while the claimed above-last
    extrapolation formula (the last segment's cubic at the clamped `dx`)
    yields 1/2. -/
theorem c6_endpoint_counterexample :
    validPointSet [⟨1, 0⟩, ⟨1, 1 / 2⟩, ⟨1, 1⟩] ∧
      (generateCubicSplineLUT [⟨1, 0⟩, ⟨1, 1 / 2⟩, ⟨1, 1⟩] 2).getD (2 - 1) 0 = 0 ∧
      clamp01 (evalSeg
        ((calculateSplineSegments [⟨1, 0⟩, ⟨1, 1 / 2⟩, ⟨1, 1⟩]).getLastD dseg)
        (((calculateSplineSegments
            [⟨1, 0⟩, ⟨1, 1 / 2⟩, ⟨1, 1⟩]).getLastD dseg).x_end -
          ((calculateSplineSegments
            [⟨1, 0⟩, ⟨1, 1 / 2⟩, ⟨1, 1⟩]).getLastD dseg).x_start)) = 1 / 2 ∧
      (0 : ℝ) ≠ 1 / 2 := by
  have hsegs : calculateSplineSegments [⟨1, 0⟩, ⟨1, 1 / 2⟩, ⟨1, 1⟩] =
      [⟨0, splineBcoef [⟨1, 0⟩, ⟨1, 1 / 2⟩, ⟨1, 1⟩] 0,
          splineCcoef [⟨1, 0⟩, ⟨1, 1 / 2⟩, ⟨1, 1⟩] 0,
          splineDcoef [⟨1, 0⟩, ⟨1, 1 / 2⟩, ⟨1, 1⟩] 0, 1, 1⟩,
        ⟨1 / 2, splineBcoef [⟨1, 0⟩, ⟨1, 1 / 2⟩, ⟨1, 1⟩] 1,
          splineCcoef [⟨1, 0⟩, ⟨1, 1 / 2⟩, ⟨1, 1⟩] 1,
          splineDcoef [⟨1, 0⟩, ⟨1, 1 / 2⟩, ⟨1, 1⟩] 1, 1, 1⟩] := by
    unfold calculateSplineSegments
    rw [if_neg (by norm_num)]
    norm_num [List.range_succ, ptAt]
  refine ⟨⟨by simp, ?_, ?_⟩, ?_, ?_, by norm_num⟩
  · intro p hp
    rcases List.mem_cons.mp hp with h | hp
    · rw [h]; norm_num
    rcases List.mem_cons.mp hp with h | hp
    · rw [h]; norm_num
    rcases List.mem_cons.mp hp with h | hp
    · rw [h]; norm_num
    · simp at hp
  · refine List.chain'_cons.mpr ⟨by norm_num, List.chain'_cons.mpr ⟨by norm_num, ?_⟩⟩
    exact List.chain'_singleton _
  · unfold generateCubicSplineLUT
    rw [show (2 : ℕ) - 1 = 1 from rfl,
      mapRange_getD _ _ _ _ (by norm_num : (1 : ℕ) < 2), hsegs]
    have hx : ((1 : ℕ) : ℝ) / (((2 : ℕ) : ℝ) - 1) = 1 := by norm_num
    rw [hx, CubicSplineInterpolator.evaluate, if_pos (by norm_num)]
    norm_num [clamp01]
  · rw [hsegs]
    norm_num [List.getLastD, evalSeg, clamp01]

/-- C1 amended: for every point set accepted by `curve_create` whose `x`
    coordinates are strictly increasing, and every requested resolution
    ≥ 2, `generateOptimizedLUT` (for any curve-type value) returns a LUT
    of exactly the requested length whose samples all lie in [0,1] —
    including the Linear path, whose samples are not re-clamped after
    interpolation.  The strict-increase hypothesis is what makes the
    real-number model faithful here: it rules out the zero divisors on
    which the C++ spline and parametric arithmetic produce non-finite
    samples (see the IEEE counterexample on a duplicate-`x` set). -/
theorem c1_lut_length_and_bounds (pts : List CurvePoint) (ty : Int) (size : Nat)
    (hv : validPointSet pts) (hstrict : strictlyIncreasingX pts) (hs : 2 ≤ size) :
    (generateOptimizedLUT pts ty size).length = size ∧
      ∀ v ∈ generateOptimizedLUT pts ty size, 0 ≤ v ∧ v ≤ 1 := by
  obtain ⟨h2, hxy, -⟩ := hv
  have hy : ∀ p ∈ pts, 0 ≤ p.y ∧ p.y ≤ 1 := fun p hp =>
    ⟨(hxy p hp).2.2.1, (hxy p hp).2.2.2⟩
  unfold generateOptimizedLUT generateAIOptimizedLUT
  split_ifs
  · refine ⟨by simp [generateLinearLUT], ?_⟩
    intro v hvm
    simp only [generateLinearLUT, List.mem_map, List.mem_range] at hvm
    obtain ⟨i, -, rfl⟩ := hvm
    exact linearInterpolate_bounds pts _ hy h2
  · refine ⟨by simp [generateCubicSplineLUT], ?_⟩
    intro v hvm
    simp only [generateCubicSplineLUT, List.mem_map, List.mem_range] at hvm
    obtain ⟨i, -, rfl⟩ := hvm
    exact clamp01_bounds _
  · refine ⟨by simp [generateBezierLUT], ?_⟩
    intro v hvm
    simp only [generateBezierLUT, List.mem_map, List.mem_range] at hvm
    obtain ⟨i, -, rfl⟩ := hvm
    cases pts with
    | nil => simp at h2
    | cons p rest =>
      rw [evaluateBezier]
      exact clamp01_bounds _
  · refine ⟨by simp [generateParametricLUT], ?_⟩
    intro v hvm
    simp only [generateParametricLUT, List.mem_map, List.mem_range] at hvm
    obtain ⟨i, -, rfl⟩ := hvm
    exact clamp01_bounds _
  · refine ⟨by simp [generateCubicSplineLUT], ?_⟩
    intro v hvm
    simp only [generateCubicSplineLUT, List.mem_map, List.mem_range] at hvm
    obtain ⟨i, -, rfl⟩ := hvm
    exact clamp01_bounds _
  · refine ⟨by simp, ?_⟩
    intro v hvm
    rw [List.eq_of_mem_replicate hvm]
    norm_num

/-- C1 witness: instantiation at the two-point ramp, Linear type,
    resolution 2. -/
theorem c1_witness :
    validPointSet [⟨0, 0⟩, ⟨1, 1⟩] ∧ strictlyIncreasingX [⟨0, 0⟩, ⟨1, 1⟩] ∧
      (2 : Nat) ≤ 2 ∧
      ((generateOptimizedLUT [⟨0, 0⟩, ⟨1, 1⟩] 0 2).length = 2 ∧
        ∀ v ∈ generateOptimizedLUT [⟨0, 0⟩, ⟨1, 1⟩] 0 2, 0 ≤ v ∧ v ≤ 1) :=
  ⟨validPointSet_unit_pair,
    List.chain'_cons.mpr ⟨by norm_num, List.chain'_singleton _⟩, by norm_num,
    c1_lut_length_and_bounds [⟨0, 0⟩, ⟨1, 1⟩] 0 2 validPointSet_unit_pair
      (List.chain'_cons.mpr ⟨by norm_num, List.chain'_singleton _⟩) (by norm_num)⟩

/-- C1 counterexample: the original claim fails on the program.  The set
    `[(0.5,0),(0.5,1)]` is accepted by `curve_create` (duplicate `x`
    permitted), and running the cubic-spline LUT generation with IEEE
    double semantics gives `b[0] = 1/0 = +infinity`, `d[0] = 0/0 = NaN`,
    so the sample at `x = 1` is `0 + inf*0 + ... = NaN`; `std::clamp`
    passes NaN through, and NaN does not lie in [0,1]. -/
theorem c1_nan_counterexample :
    validPointSet [⟨1 / 2, 0⟩, ⟨1 / 2, 1⟩] ∧
      (generateCubicSplineLUTF [⟨1 / 2, 0⟩, ⟨1 / 2, 1⟩] 2).getD 1 (FP.fin 0) =
        FP.nan ∧
      ¬ FPin01 FP.nan := by
  refine ⟨?_, ?_, ?_⟩
  · refine ⟨by simp, ?_, ?_⟩
    · intro p hp
      rcases List.mem_cons.mp hp with h | hp
      · rw [h]; norm_num
      rcases List.mem_cons.mp hp with h | hp
      · rw [h]; norm_num
      · simp at hp
    · exact List.chain'_cons.mpr ⟨by norm_num, List.chain'_singleton _⟩
  · have hH : splineHF [⟨1 / 2, 0⟩, ⟨1 / 2, 1⟩] 0 = FP.fin 0 := by
      unfold splineHF ptAt
      norm_num [FP.sub, FP.neg, FP.add]
    have hc1 : splineCcoefF [⟨1 / 2, 0⟩, ⟨1 / 2, 1⟩] 1 = FP.fin 0 := by
      rw [splineCcoefF]
      norm_num
    have hc0 : splineCcoefF [⟨1 / 2, 0⟩, ⟨1 / 2, 1⟩] 0 = FP.fin 0 := by
      rw [splineCcoefF, if_neg (by norm_num), hc1]
      norm_num [splineLMZF, FP.mul, FP.sub, FP.neg, FP.add]
    have hb0 : splineBcoefF [⟨1 / 2, 0⟩, ⟨1 / 2, 1⟩] 0 = FP.pinf := by
      unfold splineBcoefF
      rw [hH, hc1, hc0]
      norm_num [ptAt, FP.sub, FP.neg, FP.add, FP.mul, FP.div]
    have hd0 : splineDcoefF [⟨1 / 2, 0⟩, ⟨1 / 2, 1⟩] 0 = FP.nan := by
      unfold splineDcoefF
      rw [hH, hc1, hc0]
      norm_num [FP.sub, FP.neg, FP.add, FP.mul, FP.div]
    have hsegs : calculateSplineSegmentsF [⟨1 / 2, 0⟩, ⟨1 / 2, 1⟩] =
        [⟨0, FP.pinf, FP.fin 0, FP.nan, 1 / 2, 1 / 2⟩] := by
      unfold calculateSplineSegmentsF
      rw [if_neg (by norm_num)]
      norm_num [List.range_succ, ptAt, hb0, hc0, hd0]
    unfold generateCubicSplineLUTF
    rw [mapRange_getD _ _ _ _ (by norm_num : (1 : ℕ) < 2), hsegs]
    have hx : ((1 : ℕ) : ℝ) / (((2 : ℕ) : ℝ) - 1) = 1 := by norm_num
    rw [hx]
    have hlast :
        ([(⟨0, FP.pinf, FP.fin 0, FP.nan, 1 / 2, 1 / 2⟩ : SplineSegmentF)]).getLastD
          dsegF = (⟨0, FP.pinf, FP.fin 0, FP.nan, 1 / 2, 1 / 2⟩ : SplineSegmentF) :=
      rfl
    rw [evaluateF, if_neg (by norm_num), if_pos (by rw [hlast]; norm_num), hlast]
    have h0 : (1 / 2 : ℝ) - 1 / 2 = 0 := by norm_num
    rw [h0]
    norm_num [evalSegF, FP.mul, FP.add, clamp01F, FP.lt]
  · intro h
    obtain ⟨r, hr, -, -⟩ := h
    exact absurd hr (by simp)

/-- C5: applying an identity LUT of any size ≥ 2 with the RGB-all policy
    reproduces every input sample bit-identically in the output buffer,
    including an untouched alpha channel on 4-channel images. -/
theorem c5_identity_lut_is_noop (n : Nat) (hn : 2 ≤ n) (inp out0 : ImageData)
    (hch : inp.channels = 3 ∨ inp.channels = 4)
    (hdata : ∀ y x c, inp.data y x c ≤ 255) (y x c : Nat)
    (hy : y < inp.height) (hx : x < inp.width) (hc : c < inp.channels) :
    (applyLUTCPU (identityLUT n) inp out0 CHANNEL_RGB).data y x c =
      inp.data y x c := by
  unfold applyLUTCPU
  dsimp only
  rw [if_pos ⟨hy, hx, hc⟩, if_pos (Or.inl rfl)]
  by_cases hcm : c < min 3 inp.channels
  · rw [if_pos hcm]
    exact mapByte_identity n _ hn (hdata y x c)
  · rw [if_neg hcm]
    rcases hch with h3 | h4
    · exfalso
      rw [h3] at hcm hc
      simp at hcm
      omega
    · have hc3 : c = 3 := by
        rw [h4] at hcm hc
        simp at hcm
        omega
      rw [if_pos ⟨h4, hc3⟩]

/-- C5 witness: instantiation at a 1×1 3-channel image with constant
    sample 7 and an identity LUT of size 2. -/
theorem c5_witness :
    (2 : Nat) ≤ 2 ∧
      ((⟨1, 1, 3, fun _ _ _ => 7⟩ : ImageData).channels = 3 ∨
        (⟨1, 1, 3, fun _ _ _ => 7⟩ : ImageData).channels = 4) ∧
      (∀ y x c, (⟨1, 1, 3, fun _ _ _ => 7⟩ : ImageData).data y x c ≤ 255) ∧
      (applyLUTCPU (identityLUT 2) (⟨1, 1, 3, fun _ _ _ => 7⟩ : ImageData)
          (⟨1, 1, 3, fun _ _ _ => 0⟩ : ImageData) CHANNEL_RGB).data 0 0 0 =
        (⟨1, 1, 3, fun _ _ _ => 7⟩ : ImageData).data 0 0 0 :=
  ⟨by norm_num, Or.inl rfl, fun _ _ _ => by norm_num,
    c5_identity_lut_is_noop 2 (by norm_num) _ _ (Or.inl rfl)
      (fun _ _ _ => by norm_num) 0 0 0 (by norm_num) (by norm_num) (by norm_num)⟩

/-- C8 counterexample: the point set `[(0.5,0),(0.5,1)]` is accepted by
    `curve_create` (clamped coordinates, sorted — duplicate `x` values are
    permitted), yet its only segment width is `h[0] = 0`, so the spline
    back substitution divides by zero. -/
theorem c8_zero_divisor_counterexample :
    validPointSet [⟨1 / 2, 0⟩, ⟨1 / 2, 1⟩] ∧
      splineH [⟨1 / 2, 0⟩, ⟨1 / 2, 1⟩] 0 = 0 ∧
      ¬ lutDivisorsNonzero [⟨1 / 2, 0⟩, ⟨1 / 2, 1⟩] := by
  have hH : splineH [⟨1 / 2, 0⟩, ⟨1 / 2, 1⟩] 0 = 0 := by
    unfold splineH ptAt
    norm_num
  refine ⟨⟨by simp, ?_, ?_⟩, hH, ?_⟩
  · intro p hp
    rcases List.mem_cons.mp hp with h | hp
    · rw [h]; norm_num
    rcases List.mem_cons.mp hp with h | hp
    · rw [h]; norm_num
    · simp at hp
  · exact List.chain'_cons.mpr ⟨by norm_num, List.chain'_singleton _⟩
  · intro hd
    exact hd.1 0 (by norm_num) hH

/-- C8 amended: with the additional hypothesis that the `x` coordinates
    are strictly increasing (no duplicate `x`, which `curve_create` does
    NOT enforce) and the first `x` is nonnegative, every division of LUT
    generation has a nonzero divisor: the segment widths `h[j]` are
    positive, the tridiagonal pivots `l[i]` are positive, and
    `points[1].x` is positive whenever the parametric path divides by
    it. -/
theorem c8_divisors_nonzero_amended (pts : List CurvePoint)
    (h2 : 2 ≤ pts.length) (hstrict : strictlyIncreasingX pts)
    (hx0 : 0 ≤ (ptAt pts 0).x) : lutDivisorsNonzero pts := by
  refine ⟨?_, ?_, ?_⟩
  · intro j hj
    exact ne_of_gt (splineH_pos hstrict hj)
  · intro i h1 hle
    cases i with
    | zero => omega
    | succ i => exact ne_of_gt (splineL_bounds pts hstrict (i + 1) hle).1
  · intro h3
    have h01 : (ptAt pts 0).x < (ptAt pts 1).x := by
      have h := List.chain'_iff_get.mp hstrict 0 (by omega)
      rw [ptAt, ptAt, List.getD_eq_get _ dpt (by omega),
        List.getD_eq_get _ dpt (by omega)]
      exact h
    exact ne_of_gt (lt_of_le_of_lt hx0 h01)

/-- C8 witness: instantiation at a strictly increasing three-point set. -/
theorem c8_witness :
    (2 ≤ ([⟨0, 0⟩, ⟨1 / 2, 3 / 4⟩, ⟨1, 1⟩] : List CurvePoint).length) ∧
      strictlyIncreasingX [⟨0, 0⟩, ⟨1 / 2, 3 / 4⟩, ⟨1, 1⟩] ∧
      0 ≤ (ptAt [⟨0, 0⟩, ⟨1 / 2, 3 / 4⟩, ⟨1, 1⟩] 0).x ∧
      lutDivisorsNonzero [⟨0, 0⟩, ⟨1 / 2, 3 / 4⟩, ⟨1, 1⟩] := by
  have hstrict : strictlyIncreasingX [⟨0, 0⟩, ⟨1 / 2, 3 / 4⟩, ⟨1, 1⟩] := by
    unfold strictlyIncreasingX
    refine List.chain'_cons.mpr ⟨by norm_num, List.chain'_cons.mpr ⟨by norm_num, ?_⟩⟩
    exact List.chain'_singleton _
  exact ⟨by simp, hstrict, by norm_num [ptAt],
    c8_divisors_nonzero_amended [⟨0, 0⟩, ⟨1 / 2, 3 / 4⟩, ⟨1, 1⟩] (by simp) hstrict
      (by norm_num [ptAt])⟩

end CurveEngine
